import Mathlib

/-!
Verification of the scraping scripts in `dsproject_ai_web_scrape`.

The repository consists of four linear Python scripts.  We shallowly embed the
parts of those scripts that the specification talks about:

* Python scalar/container values are embedded as the inductive `PyVal`; Python
  floats are modelled exactly as rationals (`ℚ`), so all arithmetic below is
  exact where the spec's concrete numbers are exactly representable.
* The builtin `float(str)` conversion is modelled by `parsePyFloat`, covering
  the grammar of finite decimal literals (optional sign, digits, fraction,
  exponent).  Underscore digit separators, `inf` and `nan` are outside the
  model, as is non-ASCII whitespace in `str.strip`.
* Step metadata from the extraction library (`scraper.execution_info`) is a
  list of dictionaries, embedded as association lists with distinct keys.
* The Playwright portions (browser lifecycle and the "Load more" polling loop)
  are embedded as an event-trace semantics parametrised by an environment that
  says which checks find the trigger element and where an exception is raised.
-/

set_option autoImplicit false

namespace Scrape

/-- Embedded Python values, as they occur in scraper results and execution
metadata: numbers, strings, lists, dictionaries (association lists with
distinct keys, matching Python dict insertion order), booleans and `None`. -/
inductive PyVal where
  | pyInt (n : Int)
  | pyFloat (q : ℚ)
  | pyStr (s : String)
  | pyBool (b : Bool)
  | pyList (xs : List PyVal)
  | pyDict (fields : List (String × PyVal))
  | pyNone

/-- The whitespace characters removed by Python's `str.strip()` (ASCII part). -/
def isPySpace (c : Char) : Bool :=
  c = ' ' || c = '\t' || c = '\n' || c = '\r' || c = '\x0b' || c = '\x0c'

/-- `s.replace("$", "")`: removes every dollar sign, wherever it occurs. -/
def removeDollars (s : String) : String :=
  String.mk (s.data.filter (fun c => !(c = '$')))

/-- `cs.dropWhile` on both ends: the character-list core of `str.strip()`. -/
def stripChars (cs : List Char) : List Char :=
  ((cs.dropWhile isPySpace).reverse.dropWhile isPySpace).reverse

/-- Python's `str.strip()` (with the ASCII whitespace set `isPySpace`). -/
def pyStrip (s : String) : String :=
  String.mk (stripChars s.data)

/-- ASCII lowercasing, modelling `str.lower()` on the ASCII keys that occur in
execution metadata. -/
def pyLower (s : String) : String :=
  String.mk (s.data.map Char.toLower)

/-- Does `hay` start with `needle`? -/
def strStarts : List Char → List Char → Bool
  | [], _ => true
  | _ :: _, [] => false
  | a :: as, b :: bs => a = b && strStarts as bs

/-- Does `hay` contain `needle` as a contiguous substring?  Models Python's
`needle in hay`. -/
def strContainsSub (needle : List Char) : List Char → Bool
  | [] => strStarts needle []
  | c :: rest => strStarts needle (c :: rest) || strContainsSub needle rest

/-- `"cost" in k.lower()`: the test both scripts use to recognise a
cost-bearing field of a step-metadata mapping. -/
def hasCostKey (k : String) : Bool :=
  strContainsSub "cost".data (pyLower k).data

/-- Numeric value of a digit character. -/
def digitVal (c : Char) : Nat := c.toNat - '0'.toNat

/-- Value of a digit string read in base 10. -/
def digitsToNat (ds : List Char) : Nat :=
  ds.foldl (fun acc c => 10 * acc + digitVal c) 0

/-- Consume an optional sign; returns `true` when the sign was `-`. -/
def parseSign : List Char → Bool × List Char
  | '-' :: t => (true, t)
  | '+' :: t => (false, t)
  | cs => (false, cs)

/-- Parse the exponent part following `e`/`E`: optional sign then at least one
digit, consuming the whole rest of the input. -/
def parseExp (cs : List Char) : Option Int :=
  let (neg, cs1) := parseSign cs
  let (ds, rest) := cs1.span Char.isDigit
  if ds.isEmpty || !rest.isEmpty then none
  else some (if neg then -(digitsToNat ds : Int) else (digitsToNat ds : Int))

/-- Parse an unsigned mantissa: digits with an optional fractional part, at
least one digit overall.  Returns its value and the unconsumed input. -/
def parseMantissa (cs : List Char) : Option (ℚ × List Char) :=
  let (ip, cs1) := cs.span Char.isDigit
  match cs1 with
  | '.' :: cs2 =>
      let (fp, cs3) := cs2.span Char.isDigit
      if ip.isEmpty && fp.isEmpty then none
      else some ((digitsToNat ip : ℚ) + (digitsToNat fp : ℚ) / (10 : ℚ) ^ fp.length, cs3)
  | _ => if ip.isEmpty then none else some ((digitsToNat ip : ℚ), cs1)

/-- Parser core of Python's `float(...)` on a character list: optional sign,
mantissa, optional exponent; the whole input must be consumed. -/
def parsePyFloatAux (cs : List Char) : Option ℚ :=
  let (neg, cs1) := parseSign cs
  match parseMantissa cs1 with
  | none => none
  | some (m, rest) =>
    let signed : ℚ := if neg then -m else m
    match rest with
    | [] => some signed
    | 'e' :: t => (parseExp t).map fun e => signed * (10 : ℚ) ^ e
    | 'E' :: t => (parseExp t).map fun e => signed * (10 : ℚ) ^ e
    | _ => none

/-- Python's `float(s)` on a string `s`, modelling finite decimal literals;
`none` models a raised `ValueError`. -/
def parsePyFloat (s : String) : Option ℚ :=
  parsePyFloatAux s.data

/-- `_to_float` from `autonation_consumer_reviews_live.py` (lines 208-227):
ints and floats pass through `float(x)` (booleans count as ints in Python, so
`float(True) = 1.0`); strings go through `float(x.replace("$", "").strip())`
with `ValueError` caught and turned into `0.0`; every other type yields
`0.0`. -/
def _to_float : PyVal → ℚ
  | .pyInt n => (n : ℚ)
  | .pyFloat q => q
  | .pyBool b => if b then 1 else 0
  | .pyStr s => (parsePyFloat (pyStrip (removeDollars s))).getD 0
  | _ => 0

/-- The value `float(str(v).replace("$", "").strip())` computed by
`extract_node_cost` in `autonation_live_scrape_minimal.py` (lines 78-81), with
`ValueError` mapped to `0.0`.  For a string `str(v)` is the string itself; for
an int, `str(n)` is its decimal digits (optionally signed), which re-parse to
`n`; for a float, `str`/`float` round-trip to the same value; `str` of a bool,
`None`, a list or a dict (`"True"`, `"None"`, `"[...]"`, `"{...}"`) never
parses as a float, so those cases yield `0.0`. -/
def nodeCostVal : PyVal → ℚ
  | .pyStr s => (parsePyFloat (pyStrip (removeDollars s))).getD 0
  | .pyInt n => (n : ℚ)
  | .pyFloat q => q
  | _ => 0

/-- A step-metadata mapping, one element of `scraper.execution_info`. -/
abbrev Node := List (String × PyVal)

/-- `extract_node_cost` from `autonation_live_scrape_minimal.py` (lines
71-82): walk the mapping's items in order and RETURN at the first key that
contains "cost" case-insensitively; `0.0` when no key matches. -/
def extract_node_cost : Node → ℚ
  | [] => 0
  | (k, v) :: rest =>
      if hasCostKey k then nodeCostVal v else extract_node_cost rest

/-- `total_cost` from `autonation_consumer_reviews_live.py` (lines 231-236):
`sum(_to_float(v) for node_info in exec_info for k, v in node_info.items()
if "cost" in k.lower())` — a flat sum over all matching fields of all
mappings. -/
def total_cost (exec_info : List Node) : ℚ :=
  (((exec_info.map fun node => node.filter fun kv => hasCostKey kv.1).flatten).map
    fun kv => _to_float kv.2).sum

/-- `total_cost` from `autonation_live_scrape_minimal.py` (line 84):
`sum(extract_node_cost(node) for node in exec_info_list)`. -/
def total_cost_minimal (exec_info : List Node) : ℚ :=
  (exec_info.map extract_node_cost).sum

/-- Modelled from the spec's wording of the cost-summation algorithm: "For
every step-metadata mapping, for every field whose name contains the token
'cost' (case-insensitive), coerce the value to a number ... Sum all such
contributions across all steps and fields." -/
def specTotalCost (exec_info : List Node) : ℚ :=
  (exec_info.map fun node =>
    (node.map fun kv => if hasCostKey kv.1 then _to_float kv.2 else 0).sum).sum

/-- The projection guard and division of `autonation_consumer_reviews_live.py`
(lines 253-266): when `n_reviews > 0 and total_cost > 0`, compute
`total_cost / n_reviews` (`some`); otherwise print "Unable to project cost"
and perform no division (`none`). -/
def cost_per_review (n_reviews : Nat) (tc : ℚ) : Option ℚ :=
  if 0 < n_reviews ∧ 0 < tc then some (tc / (n_reviews : ℚ)) else none

/-- The projection guard and division of `autonation_live_scrape_minimal.py`
(lines 91-99): `if cars_in_run and total_cost:` — Python truthiness, i.e.
both nonzero — divide; otherwise print the warning and perform no
division (`none`). -/
def cost_per_car (cars_in_run : Nat) (tc : ℚ) : Option ℚ :=
  if cars_in_run ≠ 0 ∧ tc ≠ 0 then some (tc / (cars_in_run : ℚ)) else none

/-- `PROJECTIONS` / `projection_sizes`: the fixed hypothetical record counts. -/
def PROJECTIONS : List ℚ := [100, 1000, 100000, 1000000]

/-- `projected_cost = quantity * cost_per_review` (line 261). -/
def projected_cost (cpr quantity : ℚ) : ℚ := quantity * cpr

/-- Numeric content of the `:.2f`/`:,.2f` two-decimal formatting applied to
the printed costs: rounding to two decimal places (exact at the spec's
concrete inputs, where no rounding tie arises). -/
def roundTo2 (q : ℚ) : ℚ := ((round (q * 100) : ℤ) : ℚ) / 100

/-- `d.get(key, default)` on an embedded dict: the value at the first matching
key (model dicts have distinct keys), or the default. -/
def dictGet (d : List (String × PyVal)) (key : String) (dflt : PyVal) : PyVal :=
  match d with
  | [] => dflt
  | (k, v) :: rest => if k = key then v else dictGet rest key dflt

/-- `key in d` on an embedded dict. -/
def dictHasKey (d : List (String × PyVal)) (key : String) : Bool :=
  match d with
  | [] => false
  | (k, _) :: rest => k = key || dictHasKey rest key

/-- Is the scraper result a direct list of records? (`isinstance(x, list)`). -/
def isDirectList : PyVal → Bool
  | .pyList _ => true
  | _ => false

/-- Is the scraper result a container dict exposing the conventional
`"content"` key? (`isinstance(x, dict) and "content" in x`). -/
def isContentDict : PyVal → Bool
  | .pyDict d => dictHasKey d "content"
  | _ => false

/-- `review_list` resolution in `autonation_consumer_reviews_live.py` (lines
240-244): start from `[]`; a list result is taken as is; a dict result yields
`reviews_data.get("content", [])`; anything else leaves `[]`. -/
def review_list (reviews_data : PyVal) : PyVal :=
  match reviews_data with
  | .pyList xs => .pyList xs
  | .pyDict d => dictGet d "content" (.pyList [])
  | _ => .pyList []

/-- Python's `len(x)`: defined for lists, strings and dicts; `none` models the
`TypeError` raised on other values. -/
def pyLen : PyVal → Option Nat
  | .pyList xs => some xs.length
  | .pyStr s => some s.length
  | .pyDict d => some d.length
  | _ => none

/-- Outcome of the preview block of `autonation_consumer_reviews_live.py`
(lines 190-201). -/
inductive PreviewOutcome where
  /-- The first two records were printed (`json.dumps(...[:2], indent=2)`). -/
  | shown
  /-- The else branch ran: "Unexpected data structure returned by scraper.
  Cannot preview." was printed and the preview skipped. -/
  | skippedWithDiagnostic
  /-- An uncaught exception: `[:2]` applied to a non-sliceable `content`. -/
  | error
deriving DecidableEq

/-- The preview block itself: list results and dicts with a `"content"` key
are previewed (slicing the content works for lists and strings, raises
otherwise); every other shape prints the diagnostic and skips the preview. -/
def previewOutcome (reviews_data : PyVal) : PreviewOutcome :=
  match reviews_data with
  | .pyList _ => .shown
  | .pyDict d =>
      if dictHasKey d "content" then
        match dictGet d "content" (.pyList []) with
        | .pyList _ => .shown
        | .pyStr _ => .shown
        | _ => .error
      else .skippedWithDiagnostic
  | _ => .skippedWithDiagnostic

/-- `cars` resolution in `autonation_live_scrape_minimal.py` (line 87):
`result if isinstance(result, list) else result.get("content", [])`.  On a
result that is neither a list nor a dict, `.get` raises `AttributeError`
(modelled by `none`) and the run crashes. -/
def cars (result : PyVal) : Option PyVal :=
  match result with
  | .pyList xs => some (.pyList xs)
  | .pyDict d => some (dictGet d "content" (.pyList []))
  | _ => none

/-- Observable browser events of a Page Materializer run.  `stop` is the exit
of the `with sync_playwright() as p:` block: Playwright's sync context manager
runs `p.stop()` on both normal and exceptional exit, terminating the driver
and with it every browser it launched, so `close` and `stop` both release the
browser session. -/
inductive Ev where
  | launch
  | goto
  | click (i : Nat)
  | capture
  | close
  | stop
deriving DecidableEq

/-- Environment for one run of `render_full_page` in
`autonation_consumer_reviews_live.py`: which checks of
`page.query_selector('button:has-text("Load more")')` find the button, which
iteration's `click()` raises an exception, and whether `page.goto` times
out. -/
structure BrowserEnv where
  found : Nat → Bool
  failAt : Option Nat
  gotoFails : Bool

/-- The `while True` loop of `render_full_page` (lines 72-83): check for the
button; if absent, break; otherwise click (which may raise), wait 1500 ms and
press End (pure delays, no resource effect), and repeat.  `fuel` bounds the
number of iterations we unfold: `none` means the loop was still running after
`fuel` checks; otherwise the result is the click events emitted and whether an
exception aborted the loop. -/
def loopEvents (found : Nat → Bool) (failAt : Option Nat) :
    Nat → Nat → Option (List Ev × Bool)
  | 0, _ => none
  | fuel + 1, i =>
      if found i then
        if failAt = some i then some ([.click i], true)
        else
          match loopEvents found failAt fuel (i + 1) with
          | none => none
          | some (evs, raised) => some (.click i :: evs, raised)
      else some ([], false)

/-- One run of `render_full_page` (lines 58-99) as an event trace plus a flag
recording whether an exception propagated out.  On a `goto` timeout the
exception leaves the `with` block, which still runs `stop`; an exception in
the loop likewise skips `capture`/`close` but not `stop`; a normal exit
captures the page, closes the browser, then leaves the `with` block. -/
def render_full_page_run (env : BrowserEnv) (fuel : Nat) :
    Option (List Ev × Bool) :=
  if env.gotoFails then some ([.launch, .goto, .stop], true)
  else
    match loopEvents env.found env.failAt fuel 0 with
    | none => none
    | some (evs, true) => some (.launch :: .goto :: (evs ++ [.stop]), true)
    | some (evs, false) =>
        some (.launch :: .goto :: (evs ++ [.capture, .close, .stop]), false)

/-- One run of `fetch_rendered_html` in `autonation_live_scrape.py` (lines
16-43) as an event trace: if `wait_for_selector` times out the exception is
printed and re-raised, leaving the `with` block (which runs `stop`); otherwise
the page is scrolled (pure delay), captured, and the browser closed. -/
def fetch_rendered_html_run (waitFails : Bool) : List Ev × Bool :=
  if waitFails then ([.launch, .goto, .stop], true)
  else ([.launch, .goto, .capture, .close, .stop], false)

/-- A trace in which the browser session has been released: it contains an
explicit `browser.close()` or the `with`-exit `stop` (which closes every
launched browser). -/
def browserReleased (tr : List Ev) : Bool :=
  decide (Ev.close ∈ tr ∨ Ev.stop ∈ tr)

/-! ### Helper lemmas -/

theorem dictGet_of_hasKey_false (d : List (String × PyVal)) (key : String)
    (dflt : PyVal) (h : dictHasKey d key = false) : dictGet d key dflt = dflt := by
  induction d with
  | nil => rfl
  | cons kv rest ih =>
      obtain ⟨k, v⟩ := kv
      simp only [dictHasKey, Bool.or_eq_false_iff, decide_eq_false_iff_not] at h
      simp only [dictGet, if_neg h.1]
      exact ih h.2

theorem sum_map_filter {α : Type} (p : α → Bool) (f : α → ℚ) (l : List α) :
    ((l.filter p).map f).sum = (l.map fun a => if p a then f a else 0).sum := by
  induction l with
  | nil => rfl
  | cons a t ih =>
      by_cases h : p a = true
      · simp [List.filter_cons, h, ih]
      · simp only [Bool.not_eq_true] at h
        simp [List.filter_cons, h, ih]

/-! ### Claims -/

/-- C2 counterexample: record count 5 and total cost −1 lie in the claim's
"otherwise" scope (neither is zero), yet the reviews projector — whose guard
is `n_reviews > 0 and total_cost > 0` — reports "unable to project" and
performs no division, contradicting "otherwise it divides total cost by
record count".  (A negative total is reachable: `_to_float("-1")` is −1.0.)
The minimal projector's truthiness guard does divide there. -/
theorem c2_counterexample :
    (5 : Nat) ≠ 0 ∧ (-1 : ℚ) ≠ 0 ∧ cost_per_review 5 (-1) = none ∧
      cost_per_car 5 (-1) = some ((-1) / ((5 : Nat) : ℚ)) := by
  refine ⟨by decide, by norm_num, ?_, ?_⟩
  · rw [cost_per_review, if_neg]
    rintro ⟨-, h⟩
    exact absurd h (by norm_num)
  · rw [cost_per_car, if_pos]
    exact ⟨by decide, by norm_num⟩

/-- C2 amended: if the record count is 0 or the total cost is 0, both
projectors (`cost_per_review` in the reviews script, `cost_per_car` in the
minimal script) report that projection is not possible (`none`) and perform
no division, so no division-by-zero error is raised.  Otherwise the minimal
projector divides total cost by record count, while the reviews projector
divides only when the total cost is positive and reports "unable to project"
for nonzero negative totals. -/
theorem c2_division_guard :
    (∀ (n : Nat) (t : ℚ), n = 0 ∨ t = 0 →
        cost_per_review n t = none ∧ cost_per_car n t = none) ∧
      (∀ (n : Nat) (t : ℚ), n ≠ 0 → t ≠ 0 →
        cost_per_car n t = some (t / (n : ℚ))) ∧
      (∀ (n : Nat) (t : ℚ), 0 < n → 0 < t →
        cost_per_review n t = some (t / (n : ℚ))) ∧
      ∀ (n : Nat) (t : ℚ), n ≠ 0 → t < 0 → cost_per_review n t = none := by
  refine ⟨?_, ?_, ?_, ?_⟩
  · intro n t h
    rcases h with rfl | rfl
    · constructor
      · simp [cost_per_review]
      · simp [cost_per_car]
    · constructor
      · simp [cost_per_review]
      · simp [cost_per_car]
  · intro n t hn ht
    rw [cost_per_car, if_pos ⟨hn, ht⟩]
  · intro n t hn ht
    rw [cost_per_review, if_pos ⟨hn, ht⟩]
  · intro n t hn ht
    rw [cost_per_review, if_neg]
    rintro ⟨-, h⟩
    exact absurd h (not_lt.mpr ht.le)

/-- C2 witness: at record count 0 both projectors report "unable to
project"; at count 20 and total 4 the reviews projector divides; at count 5
and total −1 the minimal projector divides while the reviews projector
reports "unable to project". -/
theorem c2_division_guard_witness :
    (cost_per_review 0 1 = none ∧ cost_per_car 0 1 = none) ∧
      cost_per_car 5 (-1) = some ((-1) / ((5 : Nat) : ℚ)) ∧
      cost_per_review 20 4 = some (4 / ((20 : Nat) : ℚ)) ∧
      cost_per_review 5 (-1) = none :=
  ⟨c2_division_guard.1 0 1 (Or.inl rfl),
    c2_division_guard.2.1 5 (-1) (by decide) (by norm_num),
    c2_division_guard.2.2.1 20 4 (by decide) (by norm_num),
    c2_division_guard.2.2.2 5 (-1) (by decide) (by norm_num)⟩

/-- C6: a container dict whose `"content"` key holds a list of records
resolves, in both scripts, to that list — so the record count used for cost
projection is its length. -/
theorem c6_content_count (d : List (String × PyVal)) (xs : List PyVal)
    (hk : dictHasKey d "content" = true)
    (hv : dictGet d "content" (.pyList []) = .pyList xs) :
    pyLen (review_list (.pyDict d)) = some xs.length ∧
      cars (.pyDict d) = some (.pyList xs) := by
  refine ⟨?_, ?_⟩
  · simp [review_list, hv, pyLen]
  · simp [cars, hv]

/-- C6 witness: a `"content"` list of 3 records yields count 3, not 0. -/
theorem c6_content_count_witness :
    pyLen (review_list (.pyDict [("content", .pyList [.pyNone, .pyNone, .pyNone])]))
        = some 3 ∧
      cars (.pyDict [("content", .pyList [.pyNone, .pyNone, .pyNone])])
        = some (.pyList [.pyNone, .pyNone, .pyNone]) :=
  c6_content_count [("content", .pyList [.pyNone, .pyNone, .pyNone])]
    [.pyNone, .pyNone, .pyNone] rfl rfl

/-- C8: a cost-field value that is already numeric (an `int` or a `float`)
passes through the coercion unchanged. -/
theorem c8_numeric_identity (n : Int) (q : ℚ) :
    _to_float (.pyInt n) = (n : ℚ) ∧ _to_float (.pyFloat q) = q :=
  ⟨rfl, rfl⟩

/-- C9: with total cost 4.00 and 20 records, the cost per review is exactly
0.20, and the projected cost reported for the hypothetical volume of 1,000
records (one of the fixed `PROJECTIONS`) is exactly 200.00, also after the
two-decimal formatting. -/
theorem c9_projection_example :
    cost_per_review 20 4 = some (1 / 5) ∧
      projected_cost (1 / 5) 1000 = 200 ∧
      roundTo2 (projected_cost (1 / 5) 1000) = 200 ∧
      (1000 : ℚ) ∈ PROJECTIONS := by
  refine ⟨?_, ?_, ?_, ?_⟩
  · rw [cost_per_review]; norm_num
  · rw [projected_cost]; norm_num
  · rw [projected_cost, roundTo2]; norm_num
  · simp [PROJECTIONS]

/-- C10: the coercion removes every `"$"` character anywhere in the string
(`replace("$", "")`), not only a leading currency symbol; consequently the
interior-dollar string `"1$5"` coerces to 15.0 (not 0.0) in both scripts. -/
theorem c10_interior_dollar :
    (∀ s : String, '$' ∉ (removeDollars s).data) ∧
      _to_float (.pyStr "1$5") = 15 ∧
      extract_node_cost [("cost", .pyStr "1$5")] = 15 := by
  refine ⟨?_, by decide, by decide⟩
  intro s h
  simp only [removeDollars, List.mem_filter] at h
  simpa using h.2

/-- C1 counterexample: a single step-metadata mapping with two cost-bearing
fields (1.0 and 2.0).  The minimal script's `total_cost` (built from
`extract_node_cost`, which returns at the first matching key) computes 1,
while the claimed sum over every cost-bearing field is 3 — so the claim is
false of the minimal script's computed total cost. -/
theorem c1_counterexample :
    total_cost_minimal [[("llm_cost", .pyFloat 1), ("embed_cost", .pyFloat 2)]] = 1 ∧
      specTotalCost [[("llm_cost", .pyFloat 1), ("embed_cost", .pyFloat 2)]] = 3 ∧
      total_cost_minimal [[("llm_cost", .pyFloat 1), ("embed_cost", .pyFloat 2)]] ≠
        specTotalCost [[("llm_cost", .pyFloat 1), ("embed_cost", .pyFloat 2)]] := by
  have h1 : hasCostKey "llm_cost" = true := by decide
  have h2 : hasCostKey "embed_cost" = true := by decide
  have hmin : total_cost_minimal
      [[("llm_cost", .pyFloat 1), ("embed_cost", .pyFloat 2)]] = 1 := by
    simp [total_cost_minimal, extract_node_cost, h1, nodeCostVal]
  have hspec : specTotalCost
      [[("llm_cost", .pyFloat 1), ("embed_cost", .pyFloat 2)]] = 3 := by
    simp only [specTotalCost, List.map_cons, List.map_nil, List.sum_cons,
      List.sum_nil, h1, h2, if_true, _to_float, add_zero]
    norm_num
  refine ⟨hmin, hspec, ?_⟩
  rw [hmin, hspec]
  norm_num

/-- C1 amended: in the consumer-reviews script the computed `total_cost` does
equal the sum, over every step-metadata mapping and every cost-bearing field
of that mapping, of the coerced value of that field (`specTotalCost`, the
spec's wording of the algorithm). -/
theorem c1_reviews_total_sums_all_fields (exec_info : List Node) :
    total_cost exec_info = specTotalCost exec_info := by
  induction exec_info with
  | nil => rfl
  | cons node rest ih =>
      have hnode := sum_map_filter (fun kv => hasCostKey kv.1)
        (fun kv => _to_float kv.2) node
      simp only [total_cost, specTotalCost, List.map_cons, List.flatten_cons,
        List.map_append, List.sum_append, List.sum_cons] at ih ⊢
      rw [hnode, ih]

/-- C3 counterexample: a string result is neither a direct list nor a
container dict, yet the minimal script does not degrade gracefully there: its
`result.get("content", [])` raises `AttributeError` (modelled by
`cars _ = none`), crashing the run. -/
theorem c3_counterexample :
    isDirectList (.pyStr "oops") = false ∧ isContentDict (.pyStr "oops") = false ∧
      cars (.pyStr "oops") = none :=
  ⟨rfl, rfl, rfl⟩

/-- C3 amended: in the consumer-reviews script, every extraction result that
is neither a direct list nor a dict with a `"content"` key degrades
gracefully — the diagnostic branch of the preview runs (preview skipped, no
crash) and the record count resolves to that of an empty list. -/
theorem c3_graceful_reviews (v : PyVal)
    (h1 : isDirectList v = false) (h2 : isContentDict v = false) :
    previewOutcome v = .skippedWithDiagnostic ∧ pyLen (review_list v) = some 0 := by
  cases v with
  | pyList xs => simp [isDirectList] at h1
  | pyDict d =>
      simp only [isContentDict] at h2
      refine ⟨by simp [previewOutcome, h2], ?_⟩
      simp [review_list, dictGet_of_hasKey_false d "content" _ h2, pyLen]
  | pyInt n => exact ⟨rfl, rfl⟩
  | pyFloat q => exact ⟨rfl, rfl⟩
  | pyStr s => exact ⟨rfl, rfl⟩
  | pyBool b => exact ⟨rfl, rfl⟩
  | pyNone => exact ⟨rfl, rfl⟩

/-- C3 witness: an integer result is handled gracefully by the reviews
script. -/
theorem c3_graceful_reviews_witness :
    previewOutcome (.pyInt 7) = .skippedWithDiagnostic ∧
      pyLen (review_list (.pyInt 7)) = some 0 :=
  c3_graceful_reviews (.pyInt 7) rfl rfl

/-- The polling loop started at check `start` stops exactly at the first
later check that does not find the trigger, having clicked once per earlier
check.  `k` is the offset of that first failing check. -/
theorem loopEvents_stops_at_first (found : Nat → Bool) :
    ∀ (k start fuel : Nat), k < fuel →
      found (start + k) = false →
      (∀ j, j < k → found (start + j) = true) →
      loopEvents found none fuel start
        = some ((List.range k).map fun j => Ev.click (start + j), false) := by
  intro k
  induction k with
  | zero =>
      intro start fuel hfuel hk _
      obtain ⟨f, rfl⟩ : ∃ f, fuel = f + 1 := ⟨fuel - 1, by omega⟩
      rw [Nat.add_zero] at hk
      simp [loopEvents, hk]
  | succ k ih =>
      intro start fuel hfuel hk hfirst
      obtain ⟨f, rfl⟩ : ∃ f, fuel = f + 1 := ⟨fuel - 1, by omega⟩
      have h0 : found start = true := by
        have := hfirst 0 (Nat.succ_pos k)
        simpa using this
      have hrec := ih (start + 1) f (by omega)
        (by rw [show start + 1 + k = start + (k + 1) from by omega]; exact hk)
        (fun j hj => by
          rw [show start + 1 + j = start + (j + 1) from by omega]
          exact hfirst (j + 1) (by omega))
      simp only [loopEvents, h0, if_true, hrec]
      have : (Ev.click start :: (List.range k).map fun j => Ev.click (start + 1 + j))
          = (List.range (k + 1)).map fun j => Ev.click (start + j) := by
        rw [List.range_succ_eq_map, List.map_cons, List.map_map]
        refine congrArg₂ _ (by rw [Nat.add_zero]) ?_
        exact List.map_congr_left fun j _ => by
          simp only [Function.comp_apply]
          exact congrArg _ (by omega)
      simp [this]

/-- C5: once the trigger-element lookup first returns no match (at check `k`,
every earlier check having found it), the control-driven polling loop of
`render_full_page` terminates at that very check, for any iteration bound
beyond `k`: it performs exactly one click per earlier check and exits with no
exception. -/
theorem c5_loop_terminates (found : Nat → Bool) (k fuel : Nat)
    (hfuel : k < fuel) (hk : found k = false)
    (hfirst : ∀ j, j < k → found j = true) :
    loopEvents found none fuel 0
      = some ((List.range k).map fun j => Ev.click j, false) := by
  have := loopEvents_stops_at_first found k 0 fuel hfuel
    (by simpa using hk) (fun j hj => by simpa using hfirst j hj)
  simpa using this

/-- C5 witness: with the trigger found on checks 0 and 1 and absent from
check 2 on, the loop exits at check 2 after exactly two clicks. -/
theorem c5_loop_terminates_witness :
    loopEvents (fun i => decide (i < 2)) none 4 0
      = some ((List.range 2).map fun j => Ev.click j, false) :=
  c5_loop_terminates (fun i => decide (i < 2)) 2 4 (by decide) (by decide)
    (fun _ hj => decide_eq_true hj)

/-- A trace that ends in the `with`-exit `stop` has released the browser, and
`stop` is its last event. -/
theorem released_concat_stop (l : List Ev) :
    browserReleased (l ++ [Ev.stop]) = true ∧
      (l ++ [Ev.stop]).getLast? = some Ev.stop := by
  constructor
  · simp [browserReleased]
  · simp

/-- C4: on every completed run of the page materializer — normal, aborted by
a navigation timeout, or aborted by an exception inside the polling loop —
the browser session is released, and the release is the last browser event
before the process continues.  This covers `render_full_page` in the reviews
script (for every environment and iteration bound) and `fetch_rendered_html`
in `autonation_live_scrape.py` (whether or not the wait for content times
out). -/
theorem c4_browser_release :
    (∀ (env : BrowserEnv) (fuel : Nat) (tr : List Ev) (raised : Bool),
        render_full_page_run env fuel = some (tr, raised) →
        browserReleased tr = true ∧ tr.getLast? = some Ev.stop) ∧
      ∀ w : Bool, browserReleased (fetch_rendered_html_run w).1 = true ∧
        (fetch_rendered_html_run w).1.getLast? = some Ev.stop := by
  constructor
  · intro env fuel tr raised h
    rw [render_full_page_run] at h
    by_cases hg : env.gotoFails
    · rw [if_pos hg] at h
      simp only [Option.some.injEq, Prod.mk.injEq] at h
      obtain ⟨h1, _⟩ := h
      subst h1
      exact ⟨by decide, by decide⟩
    · rw [if_neg hg] at h
      rcases hle : loopEvents env.found env.failAt fuel 0 with _ | ⟨evs, r⟩
      · rw [hle] at h
        exact absurd h (by simp)
      · rw [hle] at h
        cases r
        · simp only [Option.some.injEq, Prod.mk.injEq] at h
          obtain ⟨h1, _⟩ := h
          subst h1
          have heq : Ev.launch :: Ev.goto :: (evs ++ [Ev.capture, Ev.close, Ev.stop])
              = (Ev.launch :: Ev.goto :: (evs ++ [Ev.capture, Ev.close])) ++ [Ev.stop] := by
            simp
          rw [heq]
          exact released_concat_stop _
        · simp only [Option.some.injEq, Prod.mk.injEq] at h
          obtain ⟨h1, _⟩ := h
          subst h1
          have heq : Ev.launch :: Ev.goto :: (evs ++ [Ev.stop])
              = (Ev.launch :: Ev.goto :: evs) ++ [Ev.stop] := by simp
          rw [heq]
          exact released_concat_stop _
  · intro w
    cases w
    · exact ⟨by decide, by decide⟩
    · exact ⟨by decide, by decide⟩

/-- A Python whitespace character is not a dollar sign. -/
theorem not_dollar_of_isPySpace {c : Char} (h : isPySpace c = true) :
    (!decide (c = '$')) = true := by
  simp only [isPySpace, Bool.or_eq_true, decide_eq_true_eq] at h
  rcases h with ((((rfl | rfl) | rfl) | rfl) | rfl) | rfl <;> decide

/-- Dropping while `p` holds skips over a leading block on which `p` holds
everywhere. -/
theorem dropWhile_all_append {α : Type} (p : α → Bool) (a l : List α)
    (h : ∀ c ∈ a, p c = true) : (a ++ l).dropWhile p = l.dropWhile p := by
  induction a with
  | nil => rfl
  | cons x t ih =>
      have hx : p x = true := h x (List.mem_cons_self x t)
      rw [List.cons_append, List.dropWhile_cons, if_pos hx]
      exact ih fun c hc => h c (List.mem_cons_of_mem x hc)

/-- Dropping while `p` holds does nothing to a list on which `p` never
holds. -/
theorem dropWhile_all_false {α : Type} (p : α → Bool) (l : List α)
    (h : ∀ c ∈ l, p c = false) : l.dropWhile p = l := by
  cases l with
  | nil => rfl
  | cons x t =>
      rw [List.dropWhile_cons, if_neg]
      simp [h x (List.mem_cons_self x t)]

/-- Stripping surrounding whitespace from a whitespace-padded block leaves
exactly the (whitespace-free, nonempty) core. -/
theorem stripChars_padded (a b t : List Char)
    (ha : ∀ c ∈ a, isPySpace c = true) (hb : ∀ c ∈ b, isPySpace c = true)
    (ht : ∀ c ∈ t, isPySpace c = false) (hne : t ≠ []) :
    stripChars (a ++ (t ++ b)) = t := by
  obtain ⟨c, t', rfl⟩ : ∃ c t', t = c :: t' := by
    cases t with
    | nil => exact absurd rfl hne
    | cons c t' => exact ⟨c, t', rfl⟩
  rw [stripChars, dropWhile_all_append isPySpace a _ ha]
  rw [show List.dropWhile isPySpace (c :: t' ++ b) = c :: t' ++ b from by
    rw [List.cons_append, List.dropWhile_cons, if_neg]
    simp [ht c (List.mem_cons_self c t')]]
  rw [List.reverse_append, dropWhile_all_append isPySpace b.reverse _
    (fun x hx => hb x (List.mem_reverse.mp hx))]
  rw [dropWhile_all_false isPySpace (c :: t').reverse
    (fun x hx => ht x (List.mem_reverse.mp hx))]
  exact List.reverse_reverse _

/-- The empty string never parses as a float. -/
theorem parsePyFloatAux_nil : parsePyFloatAux [] = none := rfl

/-- C7: coercion of cost-field strings.  First part: for every string of the
form `"$<number>"` with arbitrary surrounding whitespace — `<number>` being
any float literal (whitespace- and dollar-free) that parses to `q` — the
coercion returns exactly `q`.  Second part: for every string whose stripped,
dollar-free form does not parse as a number, the coercion returns 0.0. -/
theorem c7_string_coercion :
    (∀ (wsa wsb num : String) (q : ℚ),
        (∀ c ∈ wsa.data, isPySpace c = true) →
        (∀ c ∈ wsb.data, isPySpace c = true) →
        (∀ c ∈ num.data, isPySpace c = false ∧ c ≠ '$') →
        parsePyFloat num = some q →
        _to_float (.pyStr (wsa ++ "$" ++ num ++ wsb)) = q) ∧
      ∀ s : String, parsePyFloat (pyStrip (removeDollars s)) = none →
        _to_float (.pyStr s) = 0 := by
  constructor
  · intro wsa wsb num q ha hb hnum hp
    have hne : num.data ≠ [] := by
      intro h0
      rw [parsePyFloat, h0, parsePyFloatAux_nil] at hp
      exact Option.noConfusion hp
    have hdata : (wsa ++ "$" ++ num ++ wsb).data
        = wsa.data ++ (['$'] ++ (num.data ++ wsb.data)) := by
      rw [String.data_append, String.data_append, String.data_append]
      simp [List.append_assoc]
    have h1 : List.filter (fun c => !decide (c = '$')) wsa.data = wsa.data :=
      List.filter_eq_self.mpr fun c hc => not_dollar_of_isPySpace (ha c hc)
    have h2 : List.filter (fun c => !decide (c = '$')) ['$'] = [] := rfl
    have h3 : List.filter (fun c => !decide (c = '$')) num.data = num.data :=
      List.filter_eq_self.mpr fun c hc => by simpa using (hnum c hc).2
    have h4 : List.filter (fun c => !decide (c = '$')) wsb.data = wsb.data :=
      List.filter_eq_self.mpr fun c hc => not_dollar_of_isPySpace (hb c hc)
    have hfilter : removeDollars (wsa ++ "$" ++ num ++ wsb)
        = String.mk (wsa.data ++ (num.data ++ wsb.data)) := by
      rw [removeDollars, hdata]
      rw [List.filter_append, List.filter_append, List.filter_append]
      rw [h1, h2, h3, h4, List.nil_append]
    have hstrip : pyStrip (removeDollars (wsa ++ "$" ++ num ++ wsb)) = num := by
      rw [hfilter, pyStrip]
      rw [show (String.mk (wsa.data ++ (num.data ++ wsb.data))).data
        = wsa.data ++ (num.data ++ wsb.data) from rfl]
      rw [stripChars_padded wsa.data wsb.data num.data ha hb
        (fun c hc => (hnum c hc).1) hne]
    show (parsePyFloat (pyStrip (removeDollars (wsa ++ "$" ++ num ++ wsb)))).getD 0 = q
    rw [hstrip, hp]
    rfl
  · intro s h
    show (parsePyFloat (pyStrip (removeDollars s))).getD 0 = 0
    rw [h]
    rfl

/-- C7 witness: `"  $3.5 "` coerces to 3.5 exactly, and the non-numeric
string `"abc"` coerces to 0.0. -/
theorem c7_string_coercion_witness :
    _to_float (.pyStr ("  " ++ "$" ++ "3.5" ++ " ")) = 7 / 2 ∧
      _to_float (.pyStr "abc") = 0 := by
  constructor
  · refine c7_string_coercion.1 "  " " " "3.5" (7 / 2) ?_ ?_ ?_ ?_
    · decide
    · decide
    · decide
    · have h : parsePyFloat "3.5" = some ((3 : ℚ) + 5 / 10 ^ 1) := rfl
      rw [h]
      norm_num
  · refine c7_string_coercion.2 "abc" ?_
    rfl

/-- C4 witness: in an environment whose very first click raises an exception,
the run's trace still releases the browser, as its final event. -/
theorem c4_browser_release_witness :
    browserReleased [Ev.launch, Ev.goto, Ev.click 0, Ev.stop] = true ∧
      ([Ev.launch, Ev.goto, Ev.click 0, Ev.stop] : List Ev).getLast? = some Ev.stop :=
  c4_browser_release.1 ⟨fun i => decide (i = 0), some 0, false⟩ 3
    [Ev.launch, Ev.goto, Ev.click 0, Ev.stop] true (by decide)

end Scrape
